import Mathlib

set_option maxHeartbeats 1000000

namespace ElasticThought

/-! Shallow embedding of the elastic-thought job-preparation core
(solver.go): configuration rewriting, blob-reference resolution, TOC
labeling, and the two orchestrators, together with proofs of the
specification's claims about them. -/

/-- Models Go strings.Split(s, sep) for a one-character separator, on
character lists.  The result always has at least one element. -/
def goSplitChar (sep : Char) : List Char → List (List Char)
  | [] => [[]]
  | c :: rest =>
    let r := goSplitChar sep rest
    if c = sep then [] :: r
    else
      match r with
      | [] => [[c]]
      | h :: t => (c :: h) :: t

theorem goSplitChar_ne_nil (sep : Char) : ∀ cs : List Char, goSplitChar sep cs ≠ []
  | [] => by simp [goSplitChar]
  | c :: rest => by
    simp only [goSplitChar]
    split
    · simp
    · split <;> simp

theorem goSplitChar_cons_sep (sep : Char) (ys : List Char) :
    goSplitChar sep (sep :: ys) = [] :: goSplitChar sep ys := by
  simp [goSplitChar]

theorem goSplitChar_length_append (sep : Char) :
    ∀ xs ys : List Char, 2 ≤ (goSplitChar sep (xs ++ sep :: ys)).length := by
  intro xs
  induction xs with
  | nil =>
    intro ys
    have h : 0 < (goSplitChar sep ys).length :=
      List.length_pos.mpr (goSplitChar_ne_nil sep ys)
    rw [List.nil_append, goSplitChar_cons_sep, List.length_cons]
    omega
  | cons x xs ih =>
    intro ys
    have hne := goSplitChar_ne_nil sep (xs ++ sep :: ys)
    have hih := ih ys
    rw [List.cons_append]
    by_cases hx : x = sep
    · have h : 0 < (goSplitChar sep (xs ++ sep :: ys)).length :=
        List.length_pos.mpr hne
      rw [hx, goSplitChar_cons_sep, List.length_cons]
      omega
    · obtain ⟨h, t, heq⟩ : ∃ h t, goSplitChar sep (xs ++ sep :: ys) = h :: t := by
        cases hgs : goSplitChar sep (xs ++ sep :: ys) with
        | nil => exact absurd hgs hne
        | cons a b => exact ⟨a, b, rfl⟩
      have e : goSplitChar sep (x :: (xs ++ sep :: ys)) = (x :: h) :: t := by
        simp only [goSplitChar]
        rw [if_neg hx, heq]
      rw [e, List.length_cons]
      rw [heq, List.length_cons] at hih
      omega

/-- Joins character-list segments with a one-character separator
(the inverse direction of goSplitChar, used to rebuild a cleaned path). -/
def joinChar (sep : Char) : List (List Char) → List Char
  | [] => []
  | [x] => x
  | x :: y :: xs => x ++ sep :: joinChar sep (y :: xs)

/-- One step of the segment stack of Go path.Clean: skip empty and "."
segments, pop on ".." (keeping ".." segments when not rooted), push
anything else.  The accumulator is in reverse order. -/
def cleanStep (rooted : Bool) (acc : List (List Char)) (seg : List Char) : List (List Char) :=
  if seg = [] ∨ seg = ['.'] then acc
  else if seg = ['.', '.'] then
    match acc with
    | [] => if rooted then [] else [['.', '.']]
    | a :: rest => if a = ['.', '.'] then ['.', '.'] :: acc else rest
  else seg :: acc

/-- Models Go path.Clean on character lists: shortest lexically
equivalent path; "." for the empty path, and a rooted path keeps its
leading slash. -/
def goPathCleanList : List Char → List Char
  | [] => ['.']
  | c :: rest =>
    let rooted : Bool := c = '/'
    let out := ((goSplitChar '/' (c :: rest)).foldl (cleanStep rooted) []).reverse
    let joined := joinChar '/' out
    if rooted then '/' :: joined
    else if joined = [] then ['.'] else joined

theorem goPathCleanList_ne_nil : ∀ cs : List Char, goPathCleanList cs ≠ []
  | [] => by simp [goPathCleanList]
  | c :: rest => by
    simp only [goPathCleanList]
    split
    · simp
    · split
      · simp
      · assumption

/-- Models Go path.Clean. -/
def goPathClean (p : String) : String := String.mk (goPathCleanList p.data)

/-- Models Go path.Split on character lists: everything after the last
slash is the file part, everything up to and including it the dir part. -/
def goPathSplitList (cs : List Char) : List Char × List Char :=
  let file := (cs.reverse.takeWhile (fun c => c != '/')).reverse
  (cs.take (cs.length - file.length), file)

/-- Models Go path.Dir: Clean of the dir part of Split (used by
addLabelsToToc to take an entry's parent directory). -/
def goPathDir (p : String) : String :=
  String.mk (goPathCleanList (goPathSplitList p.data).1)

theorem goPathDir_ne_empty (p : String) : goPathDir p ≠ "" := by
  unfold goPathDir
  intro h
  exact goPathCleanList_ne_nil _ (congrArg String.data h)

/-- Models the two-argument Go path.Join: drop leading empty elements,
join with a slash, Clean the result. -/
def goPathJoin (a b : String) : String :=
  if a = "" then (if b = "" then "" else goPathClean b)
  else goPathClean (a ++ "/" ++ b)

/-- Models Go strings.HasPrefix. -/
def goHasPfx (s pre : String) : Bool := pre.data.isPrefixOf s.data

/-- Models Go strings.Replace(s, old, new, 1) on character lists:
replaces the leftmost occurrence of old, if any. -/
def goReplaceOnceList : List Char → List Char → List Char → List Char
  | [], old, new => if old = [] then new else []
  | c :: rest, old, new =>
    if old.isPrefixOf (c :: rest) then new ++ (c :: rest).drop old.length
    else c :: goReplaceOnceList rest old new

/-- Models Go strings.Replace(s, old, new, 1). -/
def goStringsReplaceOnce (s old new : String) : String :=
  String.mk (goReplaceOnceList s.data old.data new.data)

theorem goReplaceOnceList_of_isPrefixOf (s old new : List Char)
    (h : old.isPrefixOf s = true) :
    goReplaceOnceList s old new = new ++ s.drop old.length := by
  cases s with
  | nil =>
    cases old with
    | nil => simp [goReplaceOnceList]
    | cons o os => simp [List.isPrefixOf] at h
  | cons c rest => simp [goReplaceOnceList, h]

theorem isPrefixOf_append_drop (pre s : List Char) (h : pre.isPrefixOf s = true) :
    pre ++ s.drop pre.length = s := by
  obtain ⟨t, rfl⟩ := List.isPrefixOf_iff_prefix.mp h
  rw [List.drop_left]

theorem strData_append (a b : String) : (a ++ b).data = a.data ++ b.data := rfl

theorem strExt {a b : String} (h : a.data = b.data) : a = b := by
  cases a
  cases b
  exact congrArg String.mk h

/-! ### TOC labeling (addLabelsToToc, solver.go lines 533-571) -/

/-- Modelled from the spec: the repo helper containsString (not under
src/), a membership test on a string list used to append a directory to
the label list only "if not already present". -/
def containsString (labels : List String) (s : String) : Bool := labels.contains s

/-- The loop of addLabelsToToc with its four mutable variables as
accumulators: currentDirectory (sentinel "" before the first entry),
labelIndex, the labeled TOC built so far, and the label list. -/
def addLabelsToTocAux (currentDirectory : String) (labelIndex : Nat)
    (tocWithLabels labels : List String) :
    List String → List String × List String
  | [] => (tocWithLabels, labels)
  | tocEntry :: rest =>
    let dir := goPathDir tocEntry
    let labelIndex' :=
      if currentDirectory = "" then labelIndex
      else if dir = currentDirectory then labelIndex
      else labelIndex + 1
    addLabelsToTocAux dir labelIndex'
      (tocWithLabels ++ [tocEntry ++ " " ++ toString labelIndex'])
      (if containsString labels dir then labels else labels ++ [dir]) rest

/-- addLabelsToToc (solver.go): walks the TOC in order, labels each
entry with the current label index (incremented whenever the parent
directory changes), and returns the labeled TOC with the label list. -/
def addLabelsToToc (tableOfContents : List String) : List String × List String :=
  addLabelsToTocAux "" 0 [] [] tableOfContents

/-- Formats one emitted (path, label) pair the way the code formats a
labeled TOC line. -/
def tocLine (p : String × Nat) : String := p.1 ++ " " ++ toString p.2

/-- Modelled from the spec: the labeling walk exactly as §4.3 words it —
an explicit first-entry flag instead of the code's "" sentinel, a
labelIndex incremented when the parent directory differs from
currentDir, currentDir set regardless, the directory appended to the
seen list if not already present, and the pair (entry, labelIndex)
emitted. -/
def specLabelWalkAux (isFirst : Bool) (currentDir : String) (labelIndex : Nat)
    (emitted : List (String × Nat)) (seen : List String) :
    List String → List (String × Nat) × List String
  | [] => (emitted, seen)
  | entry :: rest =>
    let dir := goPathDir entry
    let li := if isFirst then labelIndex
      else if dir ≠ currentDir then labelIndex + 1 else labelIndex
    specLabelWalkAux false dir li (emitted ++ [(entry, li)])
      (if seen.contains dir then seen else seen ++ [dir]) rest

/-- Modelled from the spec: the full specified walk, starting at label
index 0 with no current directory. -/
def specLabelWalk (entries : List String) : List (String × Nat) × List String :=
  specLabelWalkAux true "" 0 [] [] entries

theorem addLabelsToTocAux_cons (cur : String) (li : Nat) (twl labels : List String)
    (e : String) (rest : List String) :
    addLabelsToTocAux cur li twl labels (e :: rest) =
      addLabelsToTocAux (goPathDir e)
        (if cur = "" then li else if goPathDir e = cur then li else li + 1)
        (twl ++ [e ++ " " ++
          toString (if cur = "" then li else if goPathDir e = cur then li else li + 1)])
        (if containsString labels (goPathDir e) then labels
         else labels ++ [goPathDir e]) rest := rfl

theorem specLabelWalkAux_cons (isFirst : Bool) (currentDir : String) (li : Nat)
    (emitted : List (String × Nat)) (seen : List String) (e : String)
    (rest : List String) :
    specLabelWalkAux isFirst currentDir li emitted seen (e :: rest) =
      specLabelWalkAux false (goPathDir e)
        (if isFirst then li else if goPathDir e ≠ currentDir then li + 1 else li)
        (emitted ++ [(e,
          if isFirst then li else if goPathDir e ≠ currentDir then li + 1 else li)])
        (if seen.contains (goPathDir e) then seen else seen ++ [goPathDir e])
        rest := rfl

theorem tocLine_map_snoc (emitted : List (String × Nat)) (e : String) (n : Nat) :
    (emitted.map tocLine) ++ [e ++ " " ++ toString n]
      = (emitted ++ [(e, n)]).map tocLine := by
  simp [tocLine]

theorem addLabels_spec_aux :
    ∀ (toc : List String) (cur : String) (li : Nat)
      (emitted : List (String × Nat)) (seen : List String), cur ≠ "" →
      addLabelsToTocAux cur li (emitted.map tocLine) seen toc =
        ((specLabelWalkAux false cur li emitted seen toc).1.map tocLine,
         (specLabelWalkAux false cur li emitted seen toc).2)
  | [], cur, li, emitted, seen, h => by
    simp [addLabelsToTocAux, specLabelWalkAux]
  | e :: rest, cur, li, emitted, seen, h => by
    rw [addLabelsToTocAux_cons, specLabelWalkAux_cons, if_neg h,
      show (containsString seen (goPathDir e)) = (seen.contains (goPathDir e)) from rfl]
    rw [show (if (false : Bool) then li else if goPathDir e ≠ cur then li + 1 else li)
          = (if goPathDir e ≠ cur then li + 1 else li) from rfl]
    by_cases hd : goPathDir e = cur
    · rw [if_pos hd, if_neg (not_not_intro hd), hd, tocLine_map_snoc]
      exact addLabels_spec_aux rest cur li (emitted ++ [(e, li)]) _ h
    · rw [if_neg hd, if_pos hd, tocLine_map_snoc]
      exact addLabels_spec_aux rest (goPathDir e) (li + 1) (emitted ++ [(e, li + 1)]) _
        (goPathDir_ne_empty e)

theorem addLabels_eq_specWalk (toc : List String) :
    addLabelsToToc toc =
      ((specLabelWalk toc).1.map tocLine, (specLabelWalk toc).2) := by
  cases toc with
  | nil => simp [addLabelsToToc, specLabelWalk, addLabelsToTocAux, specLabelWalkAux]
  | cons e rest =>
    unfold addLabelsToToc specLabelWalk
    rw [addLabelsToTocAux_cons, specLabelWalkAux_cons, if_pos rfl,
      show (containsString [] (goPathDir e)) = (List.contains [] (goPathDir e)) from rfl,
      show (if (true : Bool) then 0 else if goPathDir e ≠ "" then 0 + 1 else 0) = 0 from rfl,
      List.contains_nil, if_neg Bool.false_ne_true]
    simpa [tocLine] using addLabels_spec_aux rest (goPathDir e) 0 [(e, 0)] [goPathDir e]
      (goPathDir_ne_empty e)

/-- C1: addLabelsToToc implements exactly the specified walk (currentDir
with labelIndex starting at 0, increment whenever the parent directory
differs from currentDir, vocabulary in first-seen order), and on the
input A/x.png, A/y.png, B/z.png, A/w.png it emits labels 0, 0, 1, 2 with
vocabulary [A, B]: a revisited directory gets a fresh incremented label. -/
theorem addLabelsToToc_implements_spec_walk :
    (∀ toc : List String,
      (addLabelsToToc toc).1 = (specLabelWalk toc).1.map tocLine ∧
      (addLabelsToToc toc).2 = (specLabelWalk toc).2) ∧
    addLabelsToToc ["A/x.png", "A/y.png", "B/z.png", "A/w.png"] =
      (["A/x.png 0", "A/y.png 0", "B/z.png 1", "A/w.png 2"], ["A", "B"]) := by
  constructor
  · intro toc
    have h := addLabels_eq_specWalk toc
    exact ⟨congrArg Prod.fst h, congrArg Prod.snd h⟩
  · decide

/-! ### Caffe configuration model (modifySolverNetSpec and
modifySolverSpec, solver.go lines 143-225) -/

/-- The two phase markers of caffe.Phase used by the rewriter. -/
inductive CaffePhase where
  | TRAIN
  | TEST
deriving DecidableEq

/-- One include marker of a layer (caffe.NetStateRule); the code
dereferences its Phase field unconditionally. -/
structure NetStateRule where
  Phase : CaffePhase
deriving DecidableEq

/-- caffe.ImageDataParameter: the Source field the rewriter overwrites,
and an opaque remainder standing for every other field. -/
structure ImageDataParameter where
  Source : Option String
  restImageData : String
deriving DecidableEq

/-- caffe.DataParameter: the Source field the rewriter overwrites, and
an opaque remainder standing for every other field. -/
structure DataParameter where
  Source : Option String
  restData : String
deriving DecidableEq

/-- The layer type tag (caffe.V1LayerParameter_LayerType): the two tags
the rewriter switches on, and OTHER for every remaining tag. -/
inductive V1LayerType where
  | IMAGE_DATA
  | DATA
  | OTHER (tag : String)
deriving DecidableEq

/-- caffe.V1LayerParameter: type tag, include markers, the two source
parameters, and an opaque remainder standing for every other field. -/
structure V1LayerParameter where
  LayerTy : V1LayerType
  Include : List NetStateRule
  ImageDataParam : ImageDataParameter
  DataParam : DataParameter
  restLayer : String
deriving DecidableEq

/-- Modelled from the spec: the fixed training manifest filename
constant TRAINING_INDEX (the constant's declaration is not under src/;
the spec fixes its existence as a fixed filename, not its literal). -/
def TRAINING_INDEX : String := "training-index"

/-- Modelled from the spec: the fixed testing manifest filename
constant TESTING_INDEX (declaration not under src/). -/
def TESTING_INDEX : String := "testing-index"

/-- Modelled from the spec: the fixed training extraction subdirectory
constant TRAINING_DIR, "training-data/" in §6. -/
def TRAINING_DIR : String := "training-data"

/-- Modelled from the spec: the fixed testing extraction subdirectory
constant TESTING_DIR, "testing-data/" in §6. -/
def TESTING_DIR : String := "testing-data"

/-- isTrainingPhase (solver.go): true iff some include marker of the
layer names the TRAIN phase. -/
def isTrainingPhase (layer : V1LayerParameter) : Bool :=
  layer.Include.any (fun includedPhase => includedPhase.Phase == CaffePhase.TRAIN)

/-- isTestingPhase (solver.go): true iff some include marker of the
layer names the TEST phase. -/
def isTestingPhase (layer : V1LayerParameter) : Bool :=
  layer.Include.any (fun includedPhase => includedPhase.Phase == CaffePhase.TEST)

/-- The assignment layerParam.ImageDataParam.Source = proto.String(v). -/
def setImageDataSource (layer : V1LayerParameter) (v : String) : V1LayerParameter :=
  { layer with ImageDataParam := { layer.ImageDataParam with Source := some v } }

/-- The assignment layerParam.DataParam.Source = proto.String(v). -/
def setDataSource (layer : V1LayerParameter) (v : String) : V1LayerParameter :=
  { layer with DataParam := { layer.DataParam with Source := some v } }

/-- The body of the layer loop of modifySolverNetSpec (solver.go lines
153-176): switch on the type tag; for IMAGE_DATA set the image-data
source to the training manifest when the layer is in the train phase and
then to the testing manifest when it is in the test phase; for DATA do
the same with the training/testing directories; leave other tags
untouched. -/
def modifyNetLayer (layerParam : V1LayerParameter) : V1LayerParameter :=
  match layerParam.LayerTy with
  | V1LayerType.IMAGE_DATA =>
    let l := if isTrainingPhase layerParam
      then setImageDataSource layerParam TRAINING_INDEX else layerParam
    if isTestingPhase layerParam then setImageDataSource l TESTING_INDEX else l
  | V1LayerType.DATA =>
    let l := if isTrainingPhase layerParam
      then setDataSource layerParam TRAINING_DIR else layerParam
    if isTestingPhase layerParam then setDataSource l TESTING_DIR else l
  | V1LayerType.OTHER _ => layerParam

/-- modifySolverNetSpec at the layer level: the in-place mutation loop
over netParam.Layers, as a map. -/
def modifySolverNetSpecLayers (layers : List V1LayerParameter) : List V1LayerParameter :=
  layers.map modifyNetLayer

/-- modifySolverNetSpec (solver.go): unmarshal the network text, rewrite
each layer, marshal it back; parsing and serialization are collaborator
capabilities passed in as functions. -/
def modifySolverNetSpec
    (unmarshalNet : String → Except String (List V1LayerParameter))
    (marshalNet : List V1LayerParameter → Except String String)
    (sourceBytes : String) : Except String String :=
  match unmarshalNet sourceBytes with
  | Except.error e => Except.error e
  | Except.ok netParamLayers => marshalNet (modifySolverNetSpecLayers netParamLayers)

/-- caffe.SolverParameter: the Net field and the snapshot-prefix field
the rewriter overwrites, and an opaque remainder standing for every
other field (SnapshotPfx models the SnapshotPrefix field). -/
structure SolverParameter where
  Net : Option String
  SnapshotPfx : Option String
  restSolver : String
deriving DecidableEq

/-- The two field assignments of modifySolverSpec (solver.go lines
215-216): Net becomes "solver-net.prototxt" and the snapshot-prefix
field becomes "snapshot". -/
def rewriteSolverParam (solverParam : SolverParameter) : SolverParameter :=
  { solverParam with
    Net := some "solver-net.prototxt"
    SnapshotPfx := some "snapshot" }

/-- modifySolverSpec (solver.go): unmarshal the solver text, overwrite
the two fields, marshal it back; parsing and serialization are
collaborator capabilities passed in as functions. -/
def modifySolverSpec
    (unmarshalSolver : String → Except String SolverParameter)
    (marshalSolver : SolverParameter → Except String String)
    (source : String) : Except String String :=
  match unmarshalSolver source with
  | Except.error e => Except.error e
  | Except.ok solverParam => marshalSolver (rewriteSolverParam solverParam)

/-- C2: the network rewrite keeps the number and order of layers, passes
layers of other type tags through unchanged, and for an image-data layer
sets the source to the training manifest when included only in the train
phase, to the testing manifest when included only in the test phase, and
leaves it unchanged when included in neither phase. -/
theorem modifySolverNetSpec_layer_rules :
    (∀ layers : List V1LayerParameter,
      (modifySolverNetSpecLayers layers).length = layers.length) ∧
    (∀ (layers : List V1LayerParameter) (i : Nat) (h1 : i < layers.length)
      (h2 : i < (modifySolverNetSpecLayers layers).length),
      (modifySolverNetSpecLayers layers).get ⟨i, h2⟩
        = modifyNetLayer (layers.get ⟨i, h1⟩)) ∧
    (∀ (l : V1LayerParameter) (tag : String),
      l.LayerTy = V1LayerType.OTHER tag → modifyNetLayer l = l) ∧
    (∀ l : V1LayerParameter, l.LayerTy = V1LayerType.IMAGE_DATA →
      isTrainingPhase l = true → isTestingPhase l = false →
      modifyNetLayer l = setImageDataSource l TRAINING_INDEX) ∧
    (∀ l : V1LayerParameter, l.LayerTy = V1LayerType.IMAGE_DATA →
      isTrainingPhase l = false → isTestingPhase l = true →
      modifyNetLayer l = setImageDataSource l TESTING_INDEX) ∧
    (∀ l : V1LayerParameter, l.LayerTy = V1LayerType.IMAGE_DATA →
      isTrainingPhase l = false → isTestingPhase l = false →
      modifyNetLayer l = l) := by
  refine ⟨?_, ?_, ?_, ?_, ?_, ?_⟩
  · intro layers
    simp [modifySolverNetSpecLayers]
  · intro layers i h1 h2
    simp [modifySolverNetSpecLayers]
  · intro l tag h
    simp [modifyNetLayer, h]
  · intro l h ht hte
    simp [modifyNetLayer, h, ht, hte]
  · intro l h ht hte
    simp [modifyNetLayer, h, ht, hte]
  · intro l h ht hte
    simp [modifyNetLayer, h, ht, hte]

/-- An include marker for the train phase. -/
def exRuleTrain : NetStateRule := { Phase := CaffePhase.TRAIN }

/-- An include marker for the test phase. -/
def exRuleTest : NetStateRule := { Phase := CaffePhase.TEST }

/-- An image-data layer included only in the train phase. -/
def exLayerTrainOnly : V1LayerParameter :=
  { LayerTy := V1LayerType.IMAGE_DATA
    Include := [exRuleTrain]
    ImageDataParam := { Source := some "orig-src", restImageData := "batch 64" }
    DataParam := { Source := some "orig-data", restData := "backend" }
    restLayer := "name train-layer" }

/-- An image-data layer included only in the test phase. -/
def exLayerTestOnly : V1LayerParameter :=
  { exLayerTrainOnly with Include := [exRuleTest], restLayer := "name test-layer" }

/-- An image-data layer included in neither phase. -/
def exLayerNone : V1LayerParameter :=
  { exLayerTrainOnly with Include := [], restLayer := "name bare-layer" }

/-- A layer of an unrelated type tag. -/
def exLayerOther : V1LayerParameter :=
  { exLayerTrainOnly with LayerTy := V1LayerType.OTHER "RELU", restLayer := "name relu1" }

/-- An image-data layer included in both phases. -/
def exLayerBoth : V1LayerParameter :=
  { exLayerTrainOnly with Include := [exRuleTrain, exRuleTest], restLayer := "name dual" }

/-- A data layer included in both phases. -/
def exLayerBothData : V1LayerParameter :=
  { exLayerBoth with LayerTy := V1LayerType.DATA, restLayer := "name dual-data" }

/-- Concrete check of C2 on example layers. -/
theorem modifySolverNetSpec_layer_rules_check :
    (modifySolverNetSpecLayers [exLayerOther, exLayerTrainOnly]).length = 2 ∧
    modifyNetLayer exLayerOther = exLayerOther ∧
    modifyNetLayer exLayerTrainOnly = setImageDataSource exLayerTrainOnly TRAINING_INDEX ∧
    modifyNetLayer exLayerTestOnly = setImageDataSource exLayerTestOnly TESTING_INDEX ∧
    modifyNetLayer exLayerNone = exLayerNone :=
  ⟨by simpa using modifySolverNetSpec_layer_rules.1 [exLayerOther, exLayerTrainOnly],
   modifySolverNetSpec_layer_rules.2.2.1 exLayerOther "RELU" rfl,
   modifySolverNetSpec_layer_rules.2.2.2.1 exLayerTrainOnly rfl (by decide) (by decide),
   modifySolverNetSpec_layer_rules.2.2.2.2.1 exLayerTestOnly rfl (by decide) (by decide),
   modifySolverNetSpec_layer_rules.2.2.2.2.2 exLayerNone rfl (by decide) (by decide)⟩

/-- C10: a layer included in both phases gets its source assigned twice,
train first and test second, so the testing name wins: for an image-data
layer the final source is the testing manifest, for a data layer the
testing directory. -/
theorem dual_phase_last_write_wins :
    ∀ l : V1LayerParameter,
      (l.LayerTy = V1LayerType.IMAGE_DATA →
        isTrainingPhase l = true → isTestingPhase l = true →
        modifyNetLayer l
            = setImageDataSource (setImageDataSource l TRAINING_INDEX) TESTING_INDEX ∧
        (modifyNetLayer l).ImageDataParam.Source = some TESTING_INDEX) ∧
      (l.LayerTy = V1LayerType.DATA →
        isTrainingPhase l = true → isTestingPhase l = true →
        modifyNetLayer l
            = setDataSource (setDataSource l TRAINING_DIR) TESTING_DIR ∧
        (modifyNetLayer l).DataParam.Source = some TESTING_DIR) := by
  intro l
  constructor
  · intro h ht hte
    constructor
    · simp [modifyNetLayer, h, ht, hte]
    · simp [modifyNetLayer, h, ht, hte, setImageDataSource]
  · intro h ht hte
    constructor
    · simp [modifyNetLayer, h, ht, hte]
    · simp [modifyNetLayer, h, ht, hte, setDataSource]

/-- Concrete check of C10 on dual-phase example layers. -/
theorem dual_phase_last_write_wins_check :
    (modifyNetLayer exLayerBoth).ImageDataParam.Source = some TESTING_INDEX ∧
    (modifyNetLayer exLayerBothData).DataParam.Source = some TESTING_DIR :=
  ⟨((dual_phase_last_write_wins exLayerBoth).1 rfl (by decide) (by decide)).2,
   ((dual_phase_last_write_wins exLayerBothData).2 rfl (by decide) (by decide)).2⟩

/-- C3: for every parsable solver text the rewrite produces exactly the
serialization of the parsed object with Net set to solver-net.prototxt
and the snapshot-prefix field set to snapshot, every other field kept
identical. -/
theorem modifySolverSpec_sets_net_and_snapshot :
    ∀ (unmarshalSolver : String → Except String SolverParameter)
      (marshalSolver : SolverParameter → Except String String)
      (source : String) (p : SolverParameter),
      unmarshalSolver source = Except.ok p →
      modifySolverSpec unmarshalSolver marshalSolver source
          = marshalSolver (rewriteSolverParam p) ∧
      (rewriteSolverParam p).Net = some "solver-net.prototxt" ∧
      (rewriteSolverParam p).SnapshotPfx = some "snapshot" ∧
      (rewriteSolverParam p).restSolver = p.restSolver := by
  intro u m source p h
  refine ⟨?_, rfl, rfl, rfl⟩
  simp [modifySolverSpec, h]

/-- A concrete parsed solver configuration. -/
def exSolverParam : SolverParameter :=
  { Net := some "old-net.prototxt", SnapshotPfx := some "old", restSolver := "momentum 0.9" }

/-- A parser collaborator that accepts everything as exSolverParam. -/
def exUnmarshalSolver : String → Except String SolverParameter :=
  fun _ => Except.ok exSolverParam

/-- A serializer collaborator for the check. -/
def exMarshalSolver : SolverParameter → Except String String :=
  fun p => Except.ok p.restSolver

/-- Concrete check of C3. -/
theorem modifySolverSpec_sets_net_and_snapshot_check :
    modifySolverSpec exUnmarshalSolver exMarshalSolver "net old"
        = exMarshalSolver (rewriteSolverParam exSolverParam) ∧
    (rewriteSolverParam exSolverParam).Net = some "solver-net.prototxt" ∧
    (rewriteSolverParam exSolverParam).SnapshotPfx = some "snapshot" ∧
    (rewriteSolverParam exSolverParam).restSolver = exSolverParam.restSolver :=
  modifySolverSpec_sets_net_and_snapshot exUnmarshalSolver exMarshalSolver
    "net old" exSolverParam rfl

/-! ### Blob reference resolver (SpecificationUrlPath /
SpecificationNetUrlPath, solver.go lines 574-594) -/

/-- Modelled from the spec: the fixed blob-store scheme prefix constant
CBFS_URI_PREFIX (its declaration is not under src/; the source comment
on SpecificationUrlPath shows the scheme cbfs://). -/
def CBFS_URI_PFX : String := "cbfs://"

/-- The Solver (job) record (solver.go): identity, dataset reference and
the two configuration references; fields not consulted by the verified
operations are omitted. -/
structure Solver where
  Id : String
  DatasetId : String
  SpecificationUrl : String
  SpecificationNetUrl : String
deriving DecidableEq

/-- SpecificationUrlPath (solver.go): requires the specification url to
start with the scheme prefix, else errors; strips the first occurrence
of the prefix. -/
def SpecificationUrlPath (s : Solver) : Except String String :=
  if goHasPfx s.SpecificationUrl CBFS_URI_PFX then
    Except.ok (goStringsReplaceOnce s.SpecificationUrl CBFS_URI_PFX "")
  else
    Except.error ("Expected " ++ s.SpecificationUrl ++ " to start with " ++ CBFS_URI_PFX)

/-- SpecificationNetUrlPath (solver.go): the same for the network
specification url. -/
def SpecificationNetUrlPath (s : Solver) : Except String String :=
  if goHasPfx s.SpecificationNetUrl CBFS_URI_PFX then
    Except.ok (goStringsReplaceOnce s.SpecificationNetUrl CBFS_URI_PFX "")
  else
    Except.error ("Expected " ++ s.SpecificationNetUrl ++ " to start with " ++ CBFS_URI_PFX)

/-- Modelled from the spec: toReference of §4.1, prepending the scheme
prefix; inline in DownloadSpecToCbfs as Sprintf of the prefix and the
path. -/
def toReference (p : String) : String := CBFS_URI_PFX ++ p

theorem goStringsReplaceOnce_strip (r : String)
    (h : goHasPfx r CBFS_URI_PFX = true) :
    goStringsReplaceOnce r CBFS_URI_PFX ""
      = String.mk (r.data.drop CBFS_URI_PFX.data.length) := by
  unfold goHasPfx at h
  unfold goStringsReplaceOnce
  rw [goReplaceOnceList_of_isPrefixOf _ _ _ h]
  simp

theorem toReference_strip (r : String) (h : goHasPfx r CBFS_URI_PFX = true) :
    toReference (String.mk (r.data.drop CBFS_URI_PFX.data.length)) = r := by
  unfold goHasPfx at h
  unfold toReference
  apply strExt
  rw [strData_append]
  show CBFS_URI_PFX.data ++ r.data.drop CBFS_URI_PFX.data.length = r.data
  exact isPrefixOf_append_drop _ _ h

/-- C4: for a reference carrying the scheme prefix, the relative path is
the remainder after the prefix and prepending the prefix restores the
original reference; for a reference lacking the prefix both resolvers
fail with the invalid-reference error. -/
theorem specificationUrlPath_roundTrip :
    ∀ s : Solver,
      (goHasPfx s.SpecificationUrl CBFS_URI_PFX = true →
        SpecificationUrlPath s
            = Except.ok (String.mk (s.SpecificationUrl.data.drop CBFS_URI_PFX.data.length)) ∧
        Except.map toReference (SpecificationUrlPath s) = Except.ok s.SpecificationUrl) ∧
      (goHasPfx s.SpecificationUrl CBFS_URI_PFX = false →
        SpecificationUrlPath s = Except.error
          ("Expected " ++ s.SpecificationUrl ++ " to start with " ++ CBFS_URI_PFX)) ∧
      (goHasPfx s.SpecificationNetUrl CBFS_URI_PFX = true →
        SpecificationNetUrlPath s
            = Except.ok (String.mk (s.SpecificationNetUrl.data.drop CBFS_URI_PFX.data.length)) ∧
        Except.map toReference (SpecificationNetUrlPath s) = Except.ok s.SpecificationNetUrl) ∧
      (goHasPfx s.SpecificationNetUrl CBFS_URI_PFX = false →
        SpecificationNetUrlPath s = Except.error
          ("Expected " ++ s.SpecificationNetUrl ++ " to start with " ++ CBFS_URI_PFX)) := by
  intro s
  refine ⟨?_, ?_, ?_, ?_⟩
  · intro h
    have hok : SpecificationUrlPath s
        = Except.ok (String.mk (s.SpecificationUrl.data.drop CBFS_URI_PFX.data.length)) := by
      unfold SpecificationUrlPath
      rw [if_pos h, goStringsReplaceOnce_strip _ h]
    refine ⟨hok, ?_⟩
    rw [hok]
    show Except.ok (toReference (String.mk
      (s.SpecificationUrl.data.drop CBFS_URI_PFX.data.length))) = Except.ok s.SpecificationUrl
    rw [toReference_strip _ h]
  · intro h
    unfold SpecificationUrlPath
    rw [if_neg (by simp [h])]
  · intro h
    have hok : SpecificationNetUrlPath s
        = Except.ok (String.mk (s.SpecificationNetUrl.data.drop CBFS_URI_PFX.data.length)) := by
      unfold SpecificationNetUrlPath
      rw [if_pos h, goStringsReplaceOnce_strip _ h]
    refine ⟨hok, ?_⟩
    rw [hok]
    show Except.ok (toReference (String.mk
      (s.SpecificationNetUrl.data.drop CBFS_URI_PFX.data.length))) = Except.ok s.SpecificationNetUrl
    rw [toReference_strip _ h]
  · intro h
    unfold SpecificationNetUrlPath
    rw [if_neg (by simp [h])]

/-- A job whose solver reference is a valid blob reference and whose
network reference lacks the scheme prefix. -/
def exSolverRefs : Solver :=
  { Id := "solver-1"
    DatasetId := "dataset-1"
    SpecificationUrl := "cbfs://solver-1/spec.prototxt"
    SpecificationNetUrl := "http://example.com/net.prototxt" }

/-- Concrete check of C4: round trip on the valid reference, error on
the invalid one. -/
theorem specificationUrlPath_roundTrip_check :
    Except.map toReference (SpecificationUrlPath exSolverRefs)
        = Except.ok exSolverRefs.SpecificationUrl ∧
    SpecificationNetUrlPath exSolverRefs = Except.error
      ("Expected " ++ exSolverRefs.SpecificationNetUrl ++ " to start with " ++ CBFS_URI_PFX) :=
  ⟨((specificationUrlPath_roundTrip exSolverRefs).1 (by decide)).2,
   (specificationUrlPath_roundTrip exSolverRefs).2.2.2 (by decide)⟩

/-! ### addParentDirToToc (solver.go lines 500-514) -/

/-- The body of the addParentDirToToc loop: split the entry on a blank,
take component 0 as the file and component 1 as the label, join the dir
onto the file.  Indexing component 1 of an entry with no blank is the
code's out-of-range panic, modelled as none. -/
def addParentDirEntry (dir tocEntry : String) : Option String :=
  match goSplitChar ' ' tocEntry.data with
  | file :: label :: _ =>
    some (goPathJoin dir (String.mk file) ++ " " ++ String.mk label)
  | _ => none

/-- addParentDirToToc (solver.go): prefix every TOC entry's path with
the given directory, keeping the label; none models the panic on a
malformed entry. -/
def addParentDirToToc : List String → String → Option (List String)
  | [], _ => some []
  | tocEntry :: rest, dir =>
    match addParentDirEntry dir tocEntry, addParentDirToToc rest dir with
    | some line, some tocWithDir => some (line :: tocWithDir)
    | _, _ => none

/-- The total per-entry transform on well-formed entries. -/
def addParentDirEntryTotal (dir tocEntry : String) : String :=
  match goSplitChar ' ' tocEntry.data with
  | file :: label :: _ => goPathJoin dir (String.mk file) ++ " " ++ String.mk label
  | _ => ""

/-- C5 counterexample: addParentDirToToc is not total — on a TOC entry
with no blank (hence no label component) the code's components[1] index
is out of range, modelled as none. -/
theorem addParentDirToToc_not_total :
    addParentDirToToc ["missing-label"] "training-data" = none := by decide

theorem addParentDirToToc_eq_map (toc : List String) (dir : String)
    (h : ∀ e ∈ toc, 2 ≤ (goSplitChar ' ' e.data).length) :
    addParentDirToToc toc dir = some (toc.map (addParentDirEntryTotal dir)) := by
  induction toc with
  | nil => simp [addParentDirToToc]
  | cons e rest ih =>
    have he := h e (List.mem_cons_self e rest)
    have hrest := ih (fun x hx => h x (List.mem_cons_of_mem e hx))
    have hsome : addParentDirEntry dir e = some (addParentDirEntryTotal dir e) := by
      cases hm : goSplitChar ' ' e.data with
      | nil =>
        rw [hm] at he
        simp at he
      | cons x r2 =>
        cases r2 with
        | nil =>
          rw [hm] at he
          simp at he
        | cons y r => simp [addParentDirEntry, addParentDirEntryTotal, hm]
    simp [addParentDirToToc, hsome, hrest]

/-- C5 amended: addParentDirToToc is pure and total on every TOC whose
entries each contain a blank-separated label (at least two components),
and then prefixes every entry's path with the subdir keeping its label;
on the spec's example it yields exactly the documented output. -/
theorem addParentDirToToc_total_on_labeled :
    (∀ (toc : List String) (dir : String),
      (∀ e ∈ toc, 2 ≤ (goSplitChar ' ' e.data).length) →
      addParentDirToToc toc dir = some (toc.map (addParentDirEntryTotal dir))) ∧
    addParentDirToToc ["a/b.png 0"] "training-data"
      = some ["training-data/a/b.png 0"] := by
  constructor
  · exact addParentDirToToc_eq_map
  · decide

/-- Concrete check of C5 (amended) on the spec's two-entry TOC. -/
theorem addParentDirToToc_total_on_labeled_check :
    addParentDirToToc ["Q/Verdana-5-0.png 27", "R/Arial-5-0.png 28"] "training-data"
      = some (["Q/Verdana-5-0.png 27", "R/Arial-5-0.png 28"].map
          (addParentDirEntryTotal "training-data")) :=
  addParentDirToToc_total_on_labeled.1
    ["Q/Verdana-5-0.png 27", "R/Arial-5-0.png 28"] "training-data" (by decide)

/-! ### Job preparation orchestrator (DownloadSpecToCbfs, solver.go
lines 229-323) -/

/-- The external collaborators of DownloadSpecToCbfs — network fetch,
configuration parsing and serialization, blob-store put, and the
document database — with their failures injected by the environment. -/
structure Oracle where
  httpGet : String → Except String String
  unmarshalSolver : String → Except String SolverParameter
  marshalSolver : SolverParameter → Except String String
  unmarshalNet : String → Except String (List V1LayerParameter)
  marshalNet : List V1LayerParameter → Except String String
  cbfsPut : String → Except String Unit
  dbEdit : Except String Unit
  dbRetrieveOk : Bool

/-- The external state DownloadSpecToCbfs acts on: blob-store files and
database documents. -/
structure SolverWorld where
  cbfsFiles : List (String × String)
  dbDocs : List (String × Solver)
deriving DecidableEq

/-- A database retrieve by document id (db.Retrieve). -/
def dbLookup (docs : List (String × Solver)) (docId : String) : Option Solver :=
  match docs.find? (fun pr => pr.1 == docId) with
  | some pr => some pr.2
  | none => none

theorem dbLookup_cons_self (i : String) (d : Solver) (docs : List (String × Solver)) :
    dbLookup ((i, d) :: docs) i = some d := by
  simp [dbLookup, List.find?]

/-- getModifiedSolverSpec (solver.go): fetch the solver specification
text from its url and rewrite it, wrapping either error with context. -/
def getModifiedSolverSpec (o : Oracle) (s : Solver) : Except String String :=
  match o.httpGet s.SpecificationUrl with
  | Except.error err =>
    Except.error ("Error getting data: " ++ s.SpecificationUrl ++ ".  " ++ err)
  | Except.ok content =>
    match modifySolverSpec o.unmarshalSolver o.marshalSolver content with
    | Except.error err =>
      Except.error ("Error modifying: " ++ content ++ ".  " ++ err)
    | Except.ok modified => Except.ok modified

/-- getModifiedSolverNetSpec (solver.go): the same for the network
specification. -/
def getModifiedSolverNetSpec (o : Oracle) (s : Solver) : Except String String :=
  match o.httpGet s.SpecificationNetUrl with
  | Except.error err =>
    Except.error ("Error getting data: " ++ s.SpecificationNetUrl ++ ".  " ++ err)
  | Except.ok content =>
    match modifySolverNetSpec o.unmarshalNet o.marshalNet content with
    | Except.error err =>
      Except.error ("Error modifying: " ++ content ++ ".  " ++ err)
    | Except.ok modified => Except.ok modified

/-- saveToCbfs (solver.go): put the content at the destination path in
the blob store, wrapping a put failure with context. -/
def saveToCbfs (o : Oracle) (w : SolverWorld) (destPath content : String) :
    Except String SolverWorld :=
  match o.cbfsPut destPath with
  | Except.error err =>
    Except.error ("Error writing " ++ destPath ++ " to cbfs: " ++ err)
  | Except.ok _ =>
    Except.ok { w with cbfsFiles := w.cbfsFiles ++ [(destPath, content)] }

/-- Save (solver.go): db.Edit the document, then db.Retrieve it again;
the edit lands in the database even when the retrieve then fails. -/
def SolverSave (o : Oracle) (s : Solver) (w : SolverWorld) :
    Except String Solver × SolverWorld :=
  match o.dbEdit with
  | Except.error e => (Except.error e, w)
  | Except.ok _ =>
    if o.dbRetrieveOk then
      match dbLookup ((s.Id, s) :: w.dbDocs) s.Id with
      | some solver =>
        (Except.ok solver, { w with dbDocs := (s.Id, s) :: w.dbDocs })
      | none =>
        (Except.error "Error retrieving solver", { w with dbDocs := (s.Id, s) :: w.dbDocs })
    else (Except.error "Error retrieving solver", { w with dbDocs := (s.Id, s) :: w.dbDocs })

/-- DownloadSpecToCbfs (solver.go): rewrite and persist the solver
specification, update the solver reference, do the same for the network
specification, then save the job record; every failure aborts with that
step's error and the world reflects only the effects already done. -/
def DownloadSpecToCbfs (o : Oracle) (s : Solver) (w : SolverWorld) :
    Except String Solver × SolverWorld :=
  match getModifiedSolverSpec o s with
  | Except.error e => (Except.error e, w)
  | Except.ok solverSpecBytes =>
    match saveToCbfs o w (s.Id ++ "/solver.prototxt") solverSpecBytes with
    | Except.error e => (Except.error e, w)
    | Except.ok w1 =>
      match getModifiedSolverNetSpec o
          { s with SpecificationUrl := CBFS_URI_PFX ++ (s.Id ++ "/solver.prototxt") } with
      | Except.error e => (Except.error e, w1)
      | Except.ok solverSpecNetBytes =>
        match saveToCbfs o w1 (s.Id ++ "/solver-net.prototxt") solverSpecNetBytes with
        | Except.error e => (Except.error e, w1)
        | Except.ok w2 =>
          SolverSave o
            { s with
              SpecificationUrl := CBFS_URI_PFX ++ (s.Id ++ "/solver.prototxt")
              SpecificationNetUrl := CBFS_URI_PFX ++ (s.Id ++ "/solver-net.prototxt") } w2

theorem goHasPfx_toReference (p : String) :
    goHasPfx (toReference p) CBFS_URI_PFX = true := by
  unfold goHasPfx toReference
  rw [strData_append]
  exact List.isPrefixOf_iff_prefix.mpr (List.prefix_append _ _)

theorem SolverSave_ok :
    ∀ (o : Oracle) (s : Solver) (w : SolverWorld) (solver : Solver) (w2 : SolverWorld),
      SolverSave o s w = (Except.ok solver, w2) → solver = s := by
  intro o s w solver w2 h
  unfold SolverSave at h
  split at h
  · simp at h
  · split at h
    · rw [dbLookup_cons_self] at h
      simp at h
      exact h.1.symm
    · simp at h

/-- C6: on success the returned job's two configuration references are
the blob references of the solver and network files namespaced by the
job id, and both start with the blob-store scheme prefix. -/
theorem downloadSpecToCbfs_success_refs :
    ∀ (o : Oracle) (s : Solver) (w : SolverWorld) (solver : Solver) (w2 : SolverWorld),
      DownloadSpecToCbfs o s w = (Except.ok solver, w2) →
      solver.SpecificationUrl = toReference (s.Id ++ "/solver.prototxt") ∧
      solver.SpecificationNetUrl = toReference (s.Id ++ "/solver-net.prototxt") ∧
      goHasPfx solver.SpecificationUrl CBFS_URI_PFX = true ∧
      goHasPfx solver.SpecificationNetUrl CBFS_URI_PFX = true := by
  intro o s w solver w2 h
  unfold DownloadSpecToCbfs at h
  split at h
  · simp at h
  · split at h
    · simp at h
    · split at h
      · simp at h
      · split at h
        · simp at h
        · have hs := SolverSave_ok _ _ _ _ _ h
          subst hs
          exact ⟨rfl, rfl, goHasPfx_toReference _, goHasPfx_toReference _⟩

/-- A job before preparation, with external http references. -/
def exJob : Solver :=
  { Id := "job-1"
    DatasetId := "ds-1"
    SpecificationUrl := "http://host/solver.prototxt"
    SpecificationNetUrl := "http://host/net.prototxt" }

/-- The same job after preparation: both references rewritten to the
blob store. -/
def exJobDone : Solver :=
  { Id := "job-1"
    DatasetId := "ds-1"
    SpecificationUrl := "cbfs://job-1/solver.prototxt"
    SpecificationNetUrl := "cbfs://job-1/solver-net.prototxt" }

/-- Collaborators that all succeed. -/
def exOkOracle : Oracle :=
  { httpGet := fun _ => Except.ok "fetched config"
    unmarshalSolver := fun _ => Except.ok exSolverParam
    marshalSolver := fun _ => Except.ok "solver-bytes"
    unmarshalNet := fun _ => Except.ok [exLayerTrainOnly]
    marshalNet := fun _ => Except.ok "net-bytes"
    cbfsPut := fun _ => Except.ok ()
    dbEdit := Except.ok ()
    dbRetrieveOk := true }

/-- The empty external world. -/
def exWorld0 : SolverWorld := { cbfsFiles := [], dbDocs := [] }

/-- The world after a fully successful preparation of exJob. -/
def exWorldDone : SolverWorld :=
  { cbfsFiles := [("job-1/solver.prototxt", "solver-bytes"),
                  ("job-1/solver-net.prototxt", "net-bytes")]
    dbDocs := [("job-1", exJobDone)] }

/-- Concrete check of C6 on a fully successful run. -/
theorem downloadSpecToCbfs_success_refs_check :
    exJobDone.SpecificationUrl = toReference (exJob.Id ++ "/solver.prototxt") ∧
    exJobDone.SpecificationNetUrl = toReference (exJob.Id ++ "/solver-net.prototxt") ∧
    goHasPfx exJobDone.SpecificationUrl CBFS_URI_PFX = true ∧
    goHasPfx exJobDone.SpecificationNetUrl CBFS_URI_PFX = true :=
  downloadSpecToCbfs_success_refs exOkOracle exJob exWorld0 exJobDone exWorldDone rfl

/-- C7: when the fetch, the parse/rewrite, or the blob persist of either
configuration fails, DownloadSpecToCbfs aborts with that first error
(wrapped with its context) and the database documents are untouched —
the job record is saved only after every prior step succeeded. -/
theorem downloadSpecToCbfs_aborts_on_error :
    ∀ (o : Oracle) (s : Solver) (w : SolverWorld),
      (∀ e, o.httpGet s.SpecificationUrl = Except.error e →
        DownloadSpecToCbfs o s w =
          (Except.error ("Error getting data: " ++ s.SpecificationUrl ++ ".  " ++ e), w)) ∧
      (∀ c e, o.httpGet s.SpecificationUrl = Except.ok c →
        modifySolverSpec o.unmarshalSolver o.marshalSolver c = Except.error e →
        DownloadSpecToCbfs o s w =
          (Except.error ("Error modifying: " ++ c ++ ".  " ++ e), w)) ∧
      (∀ b e, getModifiedSolverSpec o s = Except.ok b →
        o.cbfsPut (s.Id ++ "/solver.prototxt") = Except.error e →
        DownloadSpecToCbfs o s w =
          (Except.error ("Error writing " ++ (s.Id ++ "/solver.prototxt") ++ " to cbfs: " ++ e),
           w)) ∧
      (∀ b e, getModifiedSolverSpec o s = Except.ok b →
        o.cbfsPut (s.Id ++ "/solver.prototxt") = Except.ok () →
        o.httpGet s.SpecificationNetUrl = Except.error e →
        (DownloadSpecToCbfs o s w).1 =
          Except.error ("Error getting data: " ++ s.SpecificationNetUrl ++ ".  " ++ e) ∧
        (DownloadSpecToCbfs o s w).2.dbDocs = w.dbDocs) ∧
      (∀ b c e, getModifiedSolverSpec o s = Except.ok b →
        o.cbfsPut (s.Id ++ "/solver.prototxt") = Except.ok () →
        o.httpGet s.SpecificationNetUrl = Except.ok c →
        modifySolverNetSpec o.unmarshalNet o.marshalNet c = Except.error e →
        (DownloadSpecToCbfs o s w).1 =
          Except.error ("Error modifying: " ++ c ++ ".  " ++ e) ∧
        (DownloadSpecToCbfs o s w).2.dbDocs = w.dbDocs) ∧
      (∀ b c b2 e, getModifiedSolverSpec o s = Except.ok b →
        o.cbfsPut (s.Id ++ "/solver.prototxt") = Except.ok () →
        o.httpGet s.SpecificationNetUrl = Except.ok c →
        modifySolverNetSpec o.unmarshalNet o.marshalNet c = Except.ok b2 →
        o.cbfsPut (s.Id ++ "/solver-net.prototxt") = Except.error e →
        (DownloadSpecToCbfs o s w).1 =
          Except.error ("Error writing " ++ (s.Id ++ "/solver-net.prototxt")
            ++ " to cbfs: " ++ e) ∧
        (DownloadSpecToCbfs o s w).2.dbDocs = w.dbDocs) := by
  intro o s w
  refine ⟨?_, ?_, ?_, ?_, ?_, ?_⟩
  · intro e h
    simp only [DownloadSpecToCbfs, getModifiedSolverSpec, h]
  · intro c e hget hmod
    simp only [DownloadSpecToCbfs, getModifiedSolverSpec, hget, hmod]
  · intro b e hspec hput
    simp only [DownloadSpecToCbfs, hspec, saveToCbfs, hput]
  · intro b e hspec hput hnet
    simp only [DownloadSpecToCbfs, hspec, saveToCbfs, hput,
      getModifiedSolverNetSpec, hnet]
    exact ⟨trivial, trivial⟩
  · intro b c e hspec hput hnet hmod
    simp only [DownloadSpecToCbfs, hspec, saveToCbfs, hput,
      getModifiedSolverNetSpec, hnet, hmod]
    exact ⟨trivial, trivial⟩
  · intro b c b2 e hspec hput hnet hmod hput2
    simp only [DownloadSpecToCbfs, hspec, saveToCbfs, hput,
      getModifiedSolverNetSpec, hnet, hmod, hput2]
    exact ⟨trivial, trivial⟩

/-- Collaborators whose network fetch always fails. -/
def exFailOracle : Oracle :=
  { exOkOracle with httpGet := fun _ => Except.error "connection refused" }

/-- Concrete check of C7: a failing fetch aborts the run with the
wrapped fetch error and an unchanged database. -/
theorem downloadSpecToCbfs_aborts_on_error_check :
    DownloadSpecToCbfs exFailOracle exJob exWorld0 =
      (Except.error ("Error getting data: " ++ exJob.SpecificationUrl
        ++ ".  " ++ "connection refused"), exWorld0) :=
  (downloadSpecToCbfs_aborts_on_error exFailOracle exJob exWorld0).1
    "connection refused" rfl

/-! ### Training data assembler (SaveTrainTestData and writeTocToFile,
solver.go lines 394-486) -/

/-- Modelled from the spec: the dataset-namespaced blob-store path of
the training-split archive (NewDataset and TrainingArtifactPath are not
under src/; §3 fixes two archive references held under
dataset-namespaced paths). -/
def TrainingArtifactPath (datasetId : String) : String :=
  datasetId ++ "/training-artifact"

/-- Modelled from the spec: the dataset-namespaced blob-store path of
the test-split archive (TestingArtifactPath is not under src/). -/
def TestingArtifactPath (datasetId : String) : String :=
  datasetId ++ "/testing-artifact"

/-- The external collaborators of SaveTrainTestData: blob-store client
creation and read, local file creation, the untar-with-TOC extraction
primitive (untarGzWithToc is not under src/; modelled as a collaborator
from archive content and destination directory to the extracted TOC),
and buffered line writes. -/
structure STTOracle where
  cbfsNew : Except String Unit
  cbfsGet : String → Except String String
  osCreate : String → Except String Unit
  untarGzWithToc : String → String → Except String (List String)
  writeString : String → String → Except String Unit

/-- The local state SaveTrainTestData acts on: local files and the
ordered trace of blob-store reads. -/
structure STTWorld where
  localFiles : List (String × String)
  getTrace : List String
deriving DecidableEq

/-- Appending content to an already-created local file. -/
def appendFile (w : STTWorld) (f content : String) : STTWorld :=
  { w with localFiles :=
      w.localFiles.map (fun pr => if pr.1 = f then (pr.1, pr.2 ++ content) else pr) }

/-- The write loop of writeTocToFile: WriteString of each entry followed
by a newline, stopping at the first write error. -/
def writeTocLines (o : STTOracle) (w : STTWorld) (destFile : String) :
    List String → Except String Unit × STTWorld
  | [] => (Except.ok (), w)
  | tocEntry :: rest =>
    match o.writeString destFile (tocEntry ++ "\n") with
    | Except.error e => (Except.error e, w)
    | Except.ok _ =>
      writeTocLines o (appendFile w destFile (tocEntry ++ "\n")) destFile rest

/-- writeTocToFile (solver.go): create the destination file, then write
every TOC entry on its own line in input order; fails with the create or
write error. -/
def writeTocToFile (o : STTOracle) (w : STTWorld) (toc : List String)
    (destFile : String) : Except String Unit × STTWorld :=
  match o.osCreate destFile with
  | Except.error e => (Except.error e, w)
  | Except.ok _ =>
    writeTocLines o { w with localFiles := w.localFiles ++ [(destFile, "")] } destFile toc

theorem appendFile_getTrace (w : STTWorld) (f c : String) :
    (appendFile w f c).getTrace = w.getTrace := rfl

theorem writeTocLines_getTrace (o : STTOracle) :
    ∀ (toc : List String) (w : STTWorld) (destFile : String),
      (writeTocLines o w destFile toc).2.getTrace = w.getTrace
  | [], w, destFile => rfl
  | tocEntry :: rest, w, destFile => by
    simp only [writeTocLines]
    split
    · rfl
    · rw [writeTocLines_getTrace o rest _ destFile, appendFile_getTrace]

theorem writeTocToFile_getTrace (o : STTOracle) (w : STTWorld)
    (toc : List String) (destFile : String) :
    (writeTocToFile o w toc destFile).2.getTrace = w.getTrace := by
  unfold writeTocToFile
  split
  · rfl
  · rw [writeTocLines_getTrace]

/-- One iteration of the artifact loop of SaveTrainTestData (solver.go
lines 405-462): create a blob client, stream the artifact while teeing
its raw bytes to a local copy, untar it into the split subdirectory,
label the TOC, prefix it with the subdirectory, and write the manifest —
whose returned error the code discards (line 460). -/
def sttIteration (o : STTOracle) (w : STTWorld)
    (destDirectory trainingArtifact artificactPath : String) :
    Except String (List String) × STTWorld :=
  match o.cbfsNew with
  | Except.error e => (Except.error e, w)
  | Except.ok _ =>
    match o.cbfsGet artificactPath with
    | Except.error e => (Except.error e, { w with getTrace := w.getTrace ++ [artificactPath] })
    | Except.ok content =>
      match o.osCreate (goPathJoin destDirectory
          (String.mk (goPathSplitList artificactPath.data).2)) with
      | Except.error e => (Except.error e, { w with getTrace := w.getTrace ++ [artificactPath] })
      | Except.ok _ =>
        match o.untarGzWithToc content (goPathJoin destDirectory
            (if artificactPath = trainingArtifact then TRAINING_DIR else TESTING_DIR)) with
        | Except.error e =>
          (Except.error e,
           { localFiles := w.localFiles ++
               [(goPathJoin destDirectory
                   (String.mk (goPathSplitList artificactPath.data).2), content)]
             getTrace := w.getTrace ++ [artificactPath] })
        | Except.ok toc =>
          match addParentDirToToc (addLabelsToToc toc).1
              (if artificactPath = trainingArtifact then TRAINING_DIR else TESTING_DIR) with
          | none =>
            (Except.error "panic: runtime error: index out of range",
             { localFiles := w.localFiles ++
                 [(goPathJoin destDirectory
                     (String.mk (goPathSplitList artificactPath.data).2), content)]
               getTrace := w.getTrace ++ [artificactPath] })
          | some tocWithSubdir =>
            (Except.ok (addLabelsToToc toc).2,
             (writeTocToFile o
               { localFiles := w.localFiles ++
                   [(goPathJoin destDirectory
                       (String.mk (goPathSplitList artificactPath.data).2), content)]
                 getTrace := w.getTrace ++ [artificactPath] }
               tocWithSubdir
               (if artificactPath = trainingArtifact
                then goPathJoin destDirectory TRAINING_INDEX
                else goPathJoin destDirectory TESTING_INDEX)).2)

/-- SaveTrainTestData (solver.go): process the training artifact, then
the test artifact, with the loop unrolled over the two fixed paths; the
label index of an iteration is kept only when its artifact path equals
the training artifact path. -/
def SaveTrainTestData (o : STTOracle) (w : STTWorld)
    (datasetId destDirectory : String) : Except String (List String) × STTWorld :=
  match (sttIteration o w destDirectory (TrainingArtifactPath datasetId)
      (TrainingArtifactPath datasetId)).1 with
  | Except.error e =>
    (Except.error e,
     (sttIteration o w destDirectory (TrainingArtifactPath datasetId)
       (TrainingArtifactPath datasetId)).2)
  | Except.ok trainingLabelIndex =>
    match (sttIteration o
        (sttIteration o w destDirectory (TrainingArtifactPath datasetId)
          (TrainingArtifactPath datasetId)).2
        destDirectory (TrainingArtifactPath datasetId)
        (TestingArtifactPath datasetId)).1 with
    | Except.error e =>
      (Except.error e,
       (sttIteration o
         (sttIteration o w destDirectory (TrainingArtifactPath datasetId)
           (TrainingArtifactPath datasetId)).2
         destDirectory (TrainingArtifactPath datasetId)
         (TestingArtifactPath datasetId)).2)
    | Except.ok labelIndex2 =>
      (Except.ok (if TestingArtifactPath datasetId = TrainingArtifactPath datasetId
         then labelIndex2 else trainingLabelIndex),
       (sttIteration o
         (sttIteration o w destDirectory (TrainingArtifactPath datasetId)
           (TrainingArtifactPath datasetId)).2
         destDirectory (TrainingArtifactPath datasetId)
         (TestingArtifactPath datasetId)).2)

theorem tocEntry_space (e : String) (n : Nat) :
    2 ≤ (goSplitChar ' ' (e ++ " " ++ toString n).data).length := by
  have h : (e ++ " " ++ toString n).data = e.data ++ ' ' :: (toString n).data := by
    rw [strData_append, strData_append, List.append_assoc]
    rfl
  rw [h]
  exact goSplitChar_length_append ' ' e.data (toString n).data

theorem addLabelsToTocAux_entries_space :
    ∀ (toc : List String) (cur : String) (li : Nat) (twl labels : List String),
      (∀ e ∈ twl, 2 ≤ (goSplitChar ' ' e.data).length) →
      ∀ e ∈ (addLabelsToTocAux cur li twl labels toc).1,
        2 ≤ (goSplitChar ' ' e.data).length
  | [], cur, li, twl, labels, h => by
    simpa [addLabelsToTocAux] using h
  | t :: rest, cur, li, twl, labels, h => by
    rw [addLabelsToTocAux_cons]
    apply addLabelsToTocAux_entries_space rest
    intro e he
    rcases List.mem_append.mp he with h1 | h2
    · exact h e h1
    · rw [List.mem_singleton] at h2
      subst h2
      exact tocEntry_space t _

theorem addLabelsToToc_entries_space (toc : List String) :
    ∀ e ∈ (addLabelsToToc toc).1, 2 ≤ (goSplitChar ' ' e.data).length :=
  addLabelsToTocAux_entries_space toc "" 0 [] [] (by simp)

theorem testing_ne_training (datasetId : String) :
    TestingArtifactPath datasetId ≠ TrainingArtifactPath datasetId := by
  intro h
  have h2 := congrArg String.data h
  rw [show (TestingArtifactPath datasetId).data
        = datasetId.data ++ ("/testing-artifact" : String).data from rfl,
      show (TrainingArtifactPath datasetId).data
        = datasetId.data ++ ("/training-artifact" : String).data from rfl] at h2
  have h3 := List.append_cancel_left h2
  exact absurd h3 (by decide)

theorem sttIteration_ok (o : STTOracle) (w : STTWorld)
    (destDirectory trainingArtifact artificactPath content : String)
    (toc : List String)
    (hnew : o.cbfsNew = Except.ok ())
    (hget : o.cbfsGet artificactPath = Except.ok content)
    (hcreate : ∀ f, o.osCreate f = Except.ok ())
    (huntar : o.untarGzWithToc content (goPathJoin destDirectory
      (if artificactPath = trainingArtifact then TRAINING_DIR else TESTING_DIR))
        = Except.ok toc) :
    (sttIteration o w destDirectory trainingArtifact artificactPath).1
        = Except.ok (addLabelsToToc toc).2 ∧
    (sttIteration o w destDirectory trainingArtifact artificactPath).2.getTrace
        = w.getTrace ++ [artificactPath] := by
  have hsub := addParentDirToToc_eq_map (addLabelsToToc toc).1
    (if artificactPath = trainingArtifact then TRAINING_DIR else TESTING_DIR)
    (addLabelsToToc_entries_space toc)
  simp only [sttIteration, hnew, hget, hcreate, huntar, hsub]
  constructor
  · trivial
  · rw [writeTocToFile_getTrace]

/-- C8: with both archives retrievable and extractable, SaveTrainTestData
reads the training artifact first and the test artifact second, and
returns the label vocabulary of the training split only — the test
split's TOC is processed but its vocabulary does not enter the result. -/
theorem saveTrainTestData_order_and_vocab :
    ∀ (o : STTOracle) (w : STTWorld) (datasetId destDirectory c1 c2 : String)
      (trainToc testToc : List String),
      o.cbfsNew = Except.ok () →
      o.cbfsGet (TrainingArtifactPath datasetId) = Except.ok c1 →
      o.cbfsGet (TestingArtifactPath datasetId) = Except.ok c2 →
      (∀ f, o.osCreate f = Except.ok ()) →
      o.untarGzWithToc c1 (goPathJoin destDirectory TRAINING_DIR) = Except.ok trainToc →
      o.untarGzWithToc c2 (goPathJoin destDirectory TESTING_DIR) = Except.ok testToc →
      (SaveTrainTestData o w datasetId destDirectory).1
          = Except.ok (addLabelsToToc trainToc).2 ∧
      (SaveTrainTestData o w datasetId destDirectory).2.getTrace
          = w.getTrace ++ [TrainingArtifactPath datasetId, TestingArtifactPath datasetId] := by
  intro o w datasetId destDirectory c1 c2 trainToc testToc hnew hget1 hget2 hcreate hu1 hu2
  have hne := testing_ne_training datasetId
  have h1 := sttIteration_ok o w destDirectory (TrainingArtifactPath datasetId)
    (TrainingArtifactPath datasetId) c1 trainToc hnew hget1 hcreate
    (by rw [if_pos rfl]; exact hu1)
  have h2 := sttIteration_ok o
    (sttIteration o w destDirectory (TrainingArtifactPath datasetId)
      (TrainingArtifactPath datasetId)).2
    destDirectory (TrainingArtifactPath datasetId) (TestingArtifactPath datasetId)
    c2 testToc hnew hget2 hcreate
    (by rw [if_neg hne]; exact hu2)
  simp only [SaveTrainTestData, h1.1, h2.1]
  rw [if_neg hne]
  constructor
  · rfl
  · rw [h2.2, h1.2, List.append_assoc]
    rfl

/-- Collaborators for the assembler where everything succeeds. -/
def exSTTOracle : STTOracle :=
  { cbfsNew := Except.ok ()
    cbfsGet := fun p =>
      if p = TrainingArtifactPath "ds-1" then Except.ok "train-archive"
      else Except.ok "test-archive"
    osCreate := fun _ => Except.ok ()
    untarGzWithToc := fun content _ =>
      if content = "train-archive" then Except.ok ["A/x.png", "B/y.png"]
      else Except.ok ["A/z.png"]
    writeString := fun _ _ => Except.ok () }

/-- The empty local world of the assembler. -/
def exSTTWorld0 : STTWorld := { localFiles := [], getTrace := [] }

/-- Concrete check of C8 on a fully successful run. -/
theorem saveTrainTestData_order_and_vocab_check :
    (SaveTrainTestData exSTTOracle exSTTWorld0 "ds-1" "/work").1
        = Except.ok (addLabelsToToc ["A/x.png", "B/y.png"]).2 ∧
    (SaveTrainTestData exSTTOracle exSTTWorld0 "ds-1" "/work").2.getTrace
        = exSTTWorld0.getTrace
            ++ [TrainingArtifactPath "ds-1", TestingArtifactPath "ds-1"] :=
  saveTrainTestData_order_and_vocab exSTTOracle exSTTWorld0 "ds-1" "/work"
    "train-archive" "test-archive" ["A/x.png", "B/y.png"] ["A/z.png"]
    rfl rfl rfl (fun _ => rfl) rfl rfl

/-- Collaborators where the create of the training manifest file fails. -/
def exFailWriteOracle : STTOracle :=
  { cbfsNew := Except.ok ()
    cbfsGet := exSTTOracle.cbfsGet
    osCreate := fun f =>
      if f = goPathJoin "/work" TRAINING_INDEX then Except.error "disk full"
      else Except.ok ()
    untarGzWithToc := exSTTOracle.untarGzWithToc
    writeString := fun _ _ => Except.ok () }

/-- C9 (code bug): writeTocToFile serializes the TOC one entry per line
in input order and fails with the IO error on a write failure, but
SaveTrainTestData discards the value returned by its writeTocToFile call
(solver.go line 460), so a failing manifest write still yields success:
with a collaborator whose create of the training manifest fails with
disk full, the inner call errors while the whole assembly returns the
training vocabulary. -/
theorem saveTrainTestData_drops_manifest_write_error :
    (writeTocToFile exFailWriteOracle exSTTWorld0 ["training-data/A/x.png 0"]
        (goPathJoin "/work" TRAINING_INDEX)).1 = Except.error "disk full" ∧
    (writeTocToFile exSTTOracle exSTTWorld0 ["a 0", "b 1"] "toc.txt").2.localFiles
        = [("toc.txt", "a 0\nb 1\n")] ∧
    (SaveTrainTestData exFailWriteOracle exSTTWorld0 "ds-1" "/work").1
        = Except.ok (addLabelsToToc ["A/x.png", "B/y.png"]).2 := by
  exact ⟨rfl, rfl, rfl⟩

end ElasticThought
